import Mathlib

/-!
Shallow embedding of the client-side aggregation / filtering engine of the
`kvshs-school-management` renderer (`src/renderer/backend/dashboard.ts` and
`src/renderer/backend/students.ts`), together with proofs of the behavioural
properties stated for it.
-/

namespace KVSHS

/-- The `strand` enumeration of the `NewStudent` interface. -/
inductive Strand
  | STEM
  | ABM
  | TVLICT
  | HUMSS
deriving DecidableEq, Repr

/-- Display string of a strand, as it appears in the TS union type. -/
def Strand.toStr : Strand → String
  | .STEM => "STEM"
  | .ABM => "ABM"
  | .TVLICT => "TVL-ICT"
  | .HUMSS => "HUMSS"

/-- The `enrollment_status` enumeration of the `NewStudent` interface. -/
inductive EnrollmentStatus
  | Pending
  | Enrolled
  | Rejected
deriving DecidableEq, Repr

/-- Display string of an enrollment status. -/
def EnrollmentStatus.toStr : EnrollmentStatus → String
  | .Pending => "Pending"
  | .Enrolled => "Enrolled"
  | .Rejected => "Rejected"

/-- The `NewStudent` interface (a well-formed record). -/
structure NewStudent where
  lname : String
  fname : String
  strand : Strand
  gradeLevel : Nat
  semester : String
  enrollment_status : EnrollmentStatus
deriving DecidableEq, Repr

/-- A row as returned by the counts query
(`select('strand, enrollment_status')`), typed `Partial<NewStudent>` in the
counting loop: either field may be missing (`none`) or hold an arbitrary
string. -/
structure RawStudent where
  strand : Option String
  enrollment_status : Option String
deriving DecidableEq, Repr

/-- The `strandCounts` object literal: one counter per strand key. -/
@[ext]
structure StrandCounts where
  STEM : Nat
  ABM : Nat
  TVLICT : Nat
  HUMSS : Nat
deriving DecidableEq, Repr

/-- The `statusCounts` object literal: one counter per status key. -/
@[ext]
structure StatusCounts where
  Pending : Nat
  Enrolled : Nat
  Rejected : Nat
deriving DecidableEq, Repr

/-- Initial `strandCounts` value: every key present, count 0. -/
def initialStrandCounts : StrandCounts := ⟨0, 0, 0, 0⟩

/-- Initial `statusCounts` value: every key present, count 0. -/
def initialStatusCounts : StatusCounts := ⟨0, 0, 0⟩

/-- `strandCounts[s] !== undefined`: `s` is one of the four object keys. -/
def strandKeyDefined (s : String) : Bool :=
  s == "STEM" || s == "ABM" || s == "TVL-ICT" || s == "HUMSS"

/-- `statusCounts[s] !== undefined`: `s` is one of the three object keys. -/
def statusKeyDefined (s : String) : Bool :=
  s == "Pending" || s == "Enrolled" || s == "Rejected"

/-- `strandCounts[strand]++` for a key known to be one of the four. -/
def bumpStrand (c : StrandCounts) (s : String) : StrandCounts :=
  if s == "STEM" then { c with STEM := c.STEM + 1 }
  else if s == "ABM" then { c with ABM := c.ABM + 1 }
  else if s == "TVL-ICT" then { c with TVLICT := c.TVLICT + 1 }
  else if s == "HUMSS" then { c with HUMSS := c.HUMSS + 1 }
  else c

/-- `statusCounts[status]++` for a key known to be one of the three. -/
def bumpStatus (c : StatusCounts) (s : String) : StatusCounts :=
  if s == "Pending" then { c with Pending := c.Pending + 1 }
  else if s == "Enrolled" then { c with Enrolled := c.Enrolled + 1 }
  else if s == "Rejected" then { c with Rejected := c.Rejected + 1 }
  else c

/-- Body of the loop for the strand counter:
`if (strand && strandCounts[strand] !== undefined) strandCounts[strand]++`.
The `strand &&` truthiness test rules out a missing field and the empty
string. -/
def stepStrand (c : StrandCounts) (s : Option String) : StrandCounts :=
  match s with
  | none => c
  | some str => if str ≠ "" ∧ strandKeyDefined str then bumpStrand c str else c

/-- Body of the loop for the status counter. -/
def stepStatus (c : StatusCounts) (s : Option String) : StatusCounts :=
  match s with
  | none => c
  | some str => if str ≠ "" ∧ statusKeyDefined str then bumpStatus c str else c

/-- The `students.forEach(...)` loop of `fetchAndProcessAllStudents`,
threading both accumulators left to right. -/
def aggregateAux : List RawStudent → StrandCounts → StatusCounts →
    StrandCounts × StatusCounts
  | [], cs, ss => (cs, ss)
  | st :: rest, cs, ss =>
      aggregateAux rest (stepStrand cs st.strand) (stepStatus ss st.enrollment_status)

/-- The pure counting core of `fetchAndProcessAllStudents`: start from the
all-zero tallies and run the loop over the fetched rows. -/
def aggregate (students : List RawStudent) : StrandCounts × StatusCounts :=
  aggregateAux students initialStrandCounts initialStatusCounts

/-- A raw row has a recognized strand value. -/
def recognizedStrand (s : Option String) : Bool :=
  match s with
  | none => false
  | some str => strandKeyDefined str

/-- A raw row has a recognized status value. -/
def recognizedStatus (s : Option String) : Bool :=
  match s with
  | none => false
  | some str => statusKeyDefined str

/-- Sum of the four strand counters. -/
def StrandCounts.total (c : StrandCounts) : Nat :=
  c.STEM + c.ABM + c.TVLICT + c.HUMSS

/-- Sum of the three status counters. -/
def StatusCounts.total (c : StatusCounts) : Nat :=
  c.Pending + c.Enrolled + c.Rejected

section AggregateLemmas

lemma stepStrand_STEM (c : StrandCounts) (s : Option String) :
    (stepStrand c s).STEM = c.STEM + (if s == some "STEM" then 1 else 0) := by
  cases s with
  | none => simp [stepStrand]
  | some str =>
    simp only [stepStrand, strandKeyDefined, bumpStrand, Option.some.injEq, beq_iff_eq]
    by_cases h1 : str = "STEM" <;> by_cases h2 : str = "ABM" <;>
      by_cases h3 : str = "TVL-ICT" <;> by_cases h4 : str = "HUMSS" <;>
      simp_all

lemma stepStrand_ABM (c : StrandCounts) (s : Option String) :
    (stepStrand c s).ABM = c.ABM + (if s == some "ABM" then 1 else 0) := by
  cases s with
  | none => simp [stepStrand]
  | some str =>
    simp only [stepStrand, strandKeyDefined, bumpStrand, Option.some.injEq, beq_iff_eq]
    by_cases h1 : str = "STEM" <;> by_cases h2 : str = "ABM" <;>
      by_cases h3 : str = "TVL-ICT" <;> by_cases h4 : str = "HUMSS" <;>
      simp_all

lemma stepStrand_TVLICT (c : StrandCounts) (s : Option String) :
    (stepStrand c s).TVLICT = c.TVLICT + (if s == some "TVL-ICT" then 1 else 0) := by
  cases s with
  | none => simp [stepStrand]
  | some str =>
    simp only [stepStrand, strandKeyDefined, bumpStrand, Option.some.injEq, beq_iff_eq]
    by_cases h1 : str = "STEM" <;> by_cases h2 : str = "ABM" <;>
      by_cases h3 : str = "TVL-ICT" <;> by_cases h4 : str = "HUMSS" <;>
      simp_all

lemma stepStrand_HUMSS (c : StrandCounts) (s : Option String) :
    (stepStrand c s).HUMSS = c.HUMSS + (if s == some "HUMSS" then 1 else 0) := by
  cases s with
  | none => simp [stepStrand]
  | some str =>
    simp only [stepStrand, strandKeyDefined, bumpStrand, Option.some.injEq, beq_iff_eq]
    by_cases h1 : str = "STEM" <;> by_cases h2 : str = "ABM" <;>
      by_cases h3 : str = "TVL-ICT" <;> by_cases h4 : str = "HUMSS" <;>
      simp_all

lemma stepStatus_Pending (c : StatusCounts) (s : Option String) :
    (stepStatus c s).Pending = c.Pending + (if s == some "Pending" then 1 else 0) := by
  cases s with
  | none => simp [stepStatus]
  | some str =>
    simp only [stepStatus, statusKeyDefined, bumpStatus, Option.some.injEq, beq_iff_eq]
    by_cases h1 : str = "Pending" <;> by_cases h2 : str = "Enrolled" <;>
      by_cases h3 : str = "Rejected" <;> simp_all

lemma stepStatus_Enrolled (c : StatusCounts) (s : Option String) :
    (stepStatus c s).Enrolled = c.Enrolled + (if s == some "Enrolled" then 1 else 0) := by
  cases s with
  | none => simp [stepStatus]
  | some str =>
    simp only [stepStatus, statusKeyDefined, bumpStatus, Option.some.injEq, beq_iff_eq]
    by_cases h1 : str = "Pending" <;> by_cases h2 : str = "Enrolled" <;>
      by_cases h3 : str = "Rejected" <;> simp_all

lemma stepStatus_Rejected (c : StatusCounts) (s : Option String) :
    (stepStatus c s).Rejected = c.Rejected + (if s == some "Rejected" then 1 else 0) := by
  cases s with
  | none => simp [stepStatus]
  | some str =>
    simp only [stepStatus, statusKeyDefined, bumpStatus, Option.some.injEq, beq_iff_eq]
    by_cases h1 : str = "Pending" <;> by_cases h2 : str = "Enrolled" <;>
      by_cases h3 : str = "Rejected" <;> simp_all

lemma aggregateAux_fst_STEM (l : List RawStudent) (cs : StrandCounts)
    (ss : StatusCounts) :
    ((aggregateAux l cs ss).1).STEM
      = cs.STEM + l.countP (fun st => st.strand == some "STEM") := by
  induction l generalizing cs ss with
  | nil => simp [aggregateAux]
  | cons st rest ih =>
    simp only [aggregateAux, List.countP_cons, ih, stepStrand_STEM]
    omega

lemma aggregateAux_fst_ABM (l : List RawStudent) (cs : StrandCounts)
    (ss : StatusCounts) :
    ((aggregateAux l cs ss).1).ABM
      = cs.ABM + l.countP (fun st => st.strand == some "ABM") := by
  induction l generalizing cs ss with
  | nil => simp [aggregateAux]
  | cons st rest ih =>
    simp only [aggregateAux, List.countP_cons, ih, stepStrand_ABM]
    omega

lemma aggregateAux_fst_TVLICT (l : List RawStudent) (cs : StrandCounts)
    (ss : StatusCounts) :
    ((aggregateAux l cs ss).1).TVLICT
      = cs.TVLICT + l.countP (fun st => st.strand == some "TVL-ICT") := by
  induction l generalizing cs ss with
  | nil => simp [aggregateAux]
  | cons st rest ih =>
    simp only [aggregateAux, List.countP_cons, ih, stepStrand_TVLICT]
    omega

lemma aggregateAux_fst_HUMSS (l : List RawStudent) (cs : StrandCounts)
    (ss : StatusCounts) :
    ((aggregateAux l cs ss).1).HUMSS
      = cs.HUMSS + l.countP (fun st => st.strand == some "HUMSS") := by
  induction l generalizing cs ss with
  | nil => simp [aggregateAux]
  | cons st rest ih =>
    simp only [aggregateAux, List.countP_cons, ih, stepStrand_HUMSS]
    omega

lemma aggregateAux_snd_Pending (l : List RawStudent) (cs : StrandCounts)
    (ss : StatusCounts) :
    ((aggregateAux l cs ss).2).Pending
      = ss.Pending + l.countP (fun st => st.enrollment_status == some "Pending") := by
  induction l generalizing cs ss with
  | nil => simp [aggregateAux]
  | cons st rest ih =>
    simp only [aggregateAux, List.countP_cons, ih, stepStatus_Pending]
    omega

lemma aggregateAux_snd_Enrolled (l : List RawStudent) (cs : StrandCounts)
    (ss : StatusCounts) :
    ((aggregateAux l cs ss).2).Enrolled
      = ss.Enrolled + l.countP (fun st => st.enrollment_status == some "Enrolled") := by
  induction l generalizing cs ss with
  | nil => simp [aggregateAux]
  | cons st rest ih =>
    simp only [aggregateAux, List.countP_cons, ih, stepStatus_Enrolled]
    omega

lemma aggregateAux_snd_Rejected (l : List RawStudent) (cs : StrandCounts)
    (ss : StatusCounts) :
    ((aggregateAux l cs ss).2).Rejected
      = ss.Rejected + l.countP (fun st => st.enrollment_status == some "Rejected") := by
  induction l generalizing cs ss with
  | nil => simp [aggregateAux]
  | cons st rest ih =>
    simp only [aggregateAux, List.countP_cons, ih, stepStatus_Rejected]
    omega

/-- Closed form of `aggregate`: each counter is the number of rows carrying
exactly that recognized value. -/
lemma aggregate_eq (l : List RawStudent) :
    aggregate l =
      (⟨l.countP (fun st => st.strand == some "STEM"),
        l.countP (fun st => st.strand == some "ABM"),
        l.countP (fun st => st.strand == some "TVL-ICT"),
        l.countP (fun st => st.strand == some "HUMSS")⟩,
       ⟨l.countP (fun st => st.enrollment_status == some "Pending"),
        l.countP (fun st => st.enrollment_status == some "Enrolled"),
        l.countP (fun st => st.enrollment_status == some "Rejected")⟩) := by
  have h1 := aggregateAux_fst_STEM l initialStrandCounts initialStatusCounts
  have h2 := aggregateAux_fst_ABM l initialStrandCounts initialStatusCounts
  have h3 := aggregateAux_fst_TVLICT l initialStrandCounts initialStatusCounts
  have h4 := aggregateAux_fst_HUMSS l initialStrandCounts initialStatusCounts
  have h5 := aggregateAux_snd_Pending l initialStrandCounts initialStatusCounts
  have h6 := aggregateAux_snd_Enrolled l initialStrandCounts initialStatusCounts
  have h7 := aggregateAux_snd_Rejected l initialStrandCounts initialStatusCounts
  simp only [initialStrandCounts, initialStatusCounts, Nat.zero_add] at h1 h2 h3 h4 h5 h6 h7
  unfold aggregate
  apply Prod.ext
  · apply StrandCounts.ext <;> assumption
  · apply StatusCounts.ext <;> assumption

/-- A single row contributes to exactly one strand counter iff its strand is
recognized. -/
lemma strand_indicator (s : Option String) :
    (if s == some "STEM" then 1 else 0) + (if s == some "ABM" then 1 else 0)
      + (if s == some "TVL-ICT" then 1 else 0) + (if s == some "HUMSS" then 1 else 0)
      = (if recognizedStrand s then 1 else 0) := by
  cases s with
  | none => simp [recognizedStrand]
  | some str =>
    simp only [recognizedStrand, strandKeyDefined, Option.some.injEq, beq_iff_eq]
    by_cases h1 : str = "STEM" <;> by_cases h2 : str = "ABM" <;>
      by_cases h3 : str = "TVL-ICT" <;> by_cases h4 : str = "HUMSS" <;>
      simp_all

/-- A single row contributes to exactly one status counter iff its status is
recognized. -/
lemma status_indicator (s : Option String) :
    (if s == some "Pending" then 1 else 0) + (if s == some "Enrolled" then 1 else 0)
      + (if s == some "Rejected" then 1 else 0)
      = (if recognizedStatus s then 1 else 0) := by
  cases s with
  | none => simp [recognizedStatus]
  | some str =>
    simp only [recognizedStatus, statusKeyDefined, Option.some.injEq, beq_iff_eq]
    by_cases h1 : str = "Pending" <;> by_cases h2 : str = "Enrolled" <;>
      by_cases h3 : str = "Rejected" <;> simp_all

/-- The four per-strand counts add up to the count of recognized-strand rows. -/
lemma countP_strand_split (l : List RawStudent) :
    l.countP (fun st => st.strand == some "STEM")
      + l.countP (fun st => st.strand == some "ABM")
      + l.countP (fun st => st.strand == some "TVL-ICT")
      + l.countP (fun st => st.strand == some "HUMSS")
      = l.countP (fun st => recognizedStrand st.strand) := by
  induction l with
  | nil => simp
  | cons st rest ih =>
    simp only [List.countP_cons]
    have h := strand_indicator st.strand
    omega

/-- The three per-status counts add up to the count of recognized-status rows. -/
lemma countP_status_split (l : List RawStudent) :
    l.countP (fun st => st.enrollment_status == some "Pending")
      + l.countP (fun st => st.enrollment_status == some "Enrolled")
      + l.countP (fun st => st.enrollment_status == some "Rejected")
      = l.countP (fun st => recognizedStatus st.enrollment_status) := by
  induction l with
  | nil => simp
  | cons st rest ih =>
    simp only [List.countP_cons]
    have h := status_indicator st.enrollment_status
    omega

end AggregateLemmas

/-- C3: `aggregate` is total over both enumerations (the result always carries
all four strand keys and all three status keys, zero-initialised), each row
with a recognized strand/status value increments exactly that counter, and a
row with a missing or unrecognized value is skipped for that counter without
any error: the result is exactly the per-value occurrence counts, and on the
empty input every counter is 0. -/
theorem aggregate_counts_spec (l : List RawStudent) :
    aggregate l =
      (⟨l.countP (fun st => st.strand == some "STEM"),
        l.countP (fun st => st.strand == some "ABM"),
        l.countP (fun st => st.strand == some "TVL-ICT"),
        l.countP (fun st => st.strand == some "HUMSS")⟩,
       ⟨l.countP (fun st => st.enrollment_status == some "Pending"),
        l.countP (fun st => st.enrollment_status == some "Enrolled"),
        l.countP (fun st => st.enrollment_status == some "Rejected")⟩)
    ∧ aggregate [] = (⟨0, 0, 0, 0⟩, ⟨0, 0, 0⟩) := by
  refine ⟨aggregate_eq l, ?_⟩
  simp [aggregate_eq]

/-- C5: the sum of the strand tally is at most the number of rows, with
equality iff every row has a recognized strand value; likewise for the status
tally. -/
theorem aggregate_total_le (l : List RawStudent) :
    ((aggregate l).1.total ≤ l.length
      ∧ ((aggregate l).1.total = l.length ↔ ∀ st ∈ l, recognizedStrand st.strand))
    ∧ ((aggregate l).2.total ≤ l.length
      ∧ ((aggregate l).2.total = l.length ↔ ∀ st ∈ l, recognizedStatus st.enrollment_status)) := by
  have hs : (aggregate l).1.total = l.countP (fun st => recognizedStrand st.strand) := by
    simp only [aggregate_eq, StrandCounts.total]
    exact countP_strand_split l
  have ht : (aggregate l).2.total = l.countP (fun st => recognizedStatus st.enrollment_status) := by
    simp only [aggregate_eq, StatusCounts.total]
    exact countP_status_split l
  rw [hs, ht]
  exact ⟨⟨List.countP_le_length _, List.countP_eq_length⟩,
    ⟨List.countP_le_length _, List.countP_eq_length⟩⟩

/-- C9: the tallies are invariant under any permutation of the input rows. -/
theorem aggregate_perm_invariant (l l' : List RawStudent) (h : l.Perm l') :
    aggregate l = aggregate l' := by
  rw [aggregate_eq, aggregate_eq]
  simp only [h.countP_eq]

/-- Witness for C9 at a concrete permutation. -/
theorem aggregate_perm_invariant_witness :
    List.Perm [RawStudent.mk (some "STEM") (some "Pending"),
               RawStudent.mk (some "ABM") none]
              [RawStudent.mk (some "ABM") none,
               RawStudent.mk (some "STEM") (some "Pending")]
    ∧ aggregate [RawStudent.mk (some "STEM") (some "Pending"),
                 RawStudent.mk (some "ABM") none]
        = aggregate [RawStudent.mk (some "ABM") none,
                     RawStudent.mk (some "STEM") (some "Pending")] :=
  ⟨by decide, aggregate_perm_invariant _ _ (by decide)⟩

/-! ### Recency Selector (`fetchRecentApplications`) -/

/-- Stable insertion into a list already sorted by `lname` descending: the new
record is placed before the first element whose `lname` is ≤ its own, so a
record keeps its place ahead of later records with the same `lname`. -/
def insertByLname (x : NewStudent) : List NewStudent → List NewStudent
  | [] => [x]
  | h :: t => if h.lname ≤ x.lname then x :: h :: t else h :: insertByLname x t

/-- Stable sort of the records by `lname`, descending. -/
def sortByLnameDesc : List NewStudent → List NewStudent
  | [] => []
  | h :: t => insertByLname h (sortByLnameDesc t)

/-- Modelled from the spec: `fetchRecentApplications` delegates the ordering
and the row limit to the external Record Source
(`.order('lname', { ascending: false }).limit(5)`), so the ordered, limited
retrieval itself is not code of this repository; per the spec it is a stable
descending sort on the last name followed by a row limit. -/
def selectRecent (records : List NewStudent) (n : Nat) : List NewStudent :=
  (sortByLnameDesc records).take n

/-- `fetchRecentApplications` requests the default limit of 5 rows. -/
def fetchRecentApplications (records : List NewStudent) : List NewStudent :=
  selectRecent records 5

/-- The descending-by-last-name ordering of the recent-applications query. -/
def DescByLname (a b : NewStudent) : Prop := b.lname ≤ a.lname

section RecencyLemmas

lemma mem_insertByLname {y x : NewStudent} {l : List NewStudent} :
    y ∈ insertByLname x l ↔ y = x ∨ y ∈ l := by
  induction l with
  | nil => simp [insertByLname]
  | cons h t ih =>
    simp only [insertByLname]
    split_ifs with hle
    · simp only [List.mem_cons]
    · simp only [List.mem_cons, ih]
      tauto

lemma perm_insertByLname (x : NewStudent) (l : List NewStudent) :
    (insertByLname x l).Perm (x :: l) := by
  induction l with
  | nil => simp [insertByLname]
  | cons h t ih =>
    simp only [insertByLname]
    split_ifs with hle
    · exact List.Perm.refl _
    · exact List.Perm.trans (List.Perm.cons h ih) (List.Perm.swap x h t)

lemma perm_sortByLnameDesc (l : List NewStudent) : (sortByLnameDesc l).Perm l := by
  induction l with
  | nil => simp [sortByLnameDesc]
  | cons h t ih =>
    exact List.Perm.trans (perm_insertByLname h (sortByLnameDesc t))
      (List.Perm.cons h ih)

lemma sorted_insertByLname {x : NewStudent} {l : List NewStudent}
    (hl : List.Sorted DescByLname l) :
    List.Sorted DescByLname (insertByLname x l) := by
  induction l with
  | nil => simp [insertByLname, List.sorted_singleton]
  | cons h t ih =>
    rw [List.sorted_cons] at hl
    simp only [insertByLname]
    split_ifs with hle
    · rw [List.sorted_cons]
      refine ⟨?_, List.sorted_cons.mpr hl⟩
      intro b hb
      rcases List.mem_cons.mp hb with rfl | hbt
      · exact hle
      · exact le_trans (hl.1 b hbt) hle
    · rw [List.sorted_cons]
      refine ⟨?_, ih hl.2⟩
      intro b hb
      rcases mem_insertByLname.mp hb with rfl | hbt
      · exact le_of_not_le hle
      · exact hl.1 b hbt

lemma sorted_sortByLnameDesc (l : List NewStudent) :
    List.Sorted DescByLname (sortByLnameDesc l) := by
  induction l with
  | nil => simp [sortByLnameDesc]
  | cons h t ih => exact sorted_insertByLname ih

lemma filter_insertByLname (x : NewStudent) (l : List NewStudent) (k : String) :
    (insertByLname x l).filter (fun r => r.lname == k)
      = if x.lname == k then x :: l.filter (fun r => r.lname == k)
        else l.filter (fun r => r.lname == k) := by
  induction l with
  | nil =>
    simp only [insertByLname, List.filter_cons, List.filter_nil]
  | cons h t ih =>
    by_cases hle : h.lname ≤ x.lname
    · rw [insertByLname, if_pos hle, List.filter_cons]
    · rw [insertByLname, if_neg hle, List.filter_cons, ih]
      by_cases hx : x.lname = k
      · have hh : ¬ h.lname = k := fun hhk => hle (le_of_eq (hhk.trans hx.symm))
        simp [hx, hh, List.filter_cons]
      · simp [hx, List.filter_cons]

lemma filter_sortByLnameDesc (l : List NewStudent) (k : String) :
    (sortByLnameDesc l).filter (fun r => r.lname == k)
      = l.filter (fun r => r.lname == k) := by
  induction l with
  | nil => rfl
  | cons h t ih =>
    simp only [sortByLnameDesc, filter_insertByLname, ih, List.filter_cons]

end RecencyLemmas

/-- C4: `selectRecent` returns exactly `min n (length records)` records (hence
at most `min n (length records)`), is drawn entirely from the input (no record
is returned more often than it occurs), is sorted by last name in descending
order, and is stable: for every last name, the returned records with that name
form a sublist of the input's records with that name, in their original
relative order. `fetchRecentApplications` is `selectRecent` at the default
limit 5. -/
theorem selectRecent_spec (records : List NewStudent) (n : Nat) :
    (selectRecent records n).length = min n records.length
    ∧ (∀ x, (selectRecent records n).count x ≤ records.count x)
    ∧ List.Sorted DescByLname (selectRecent records n)
    ∧ (∀ k, ((selectRecent records n).filter (fun r => r.lname == k)).Sublist
        (records.filter (fun r => r.lname == k)))
    ∧ fetchRecentApplications records = selectRecent records 5 := by
  have hperm := perm_sortByLnameDesc records
  refine ⟨?_, ?_, ?_, ?_, rfl⟩
  · rw [selectRecent, List.length_take, hperm.length_eq]
  · intro x
    have h1 : (selectRecent records n).count x ≤ (sortByLnameDesc records).count x :=
      (List.take_sublist n (sortByLnameDesc records)).count_le x
    rw [hperm.count_eq x] at h1
    exact h1
  · exact List.Pairwise.sublist (List.take_sublist n (sortByLnameDesc records))
      (sorted_sortByLnameDesc records)
  · intro k
    have h1 := (List.take_sublist n (sortByLnameDesc records)).filter
      (fun r => r.lname == k)
    rw [filter_sortByLnameDesc] at h1
    exact h1

/-! ### Filter Engine (`filterTable`, students view) -/

/-- JS `toLowerCase()`: lowercase every character of the string. -/
def lowerStr (s : String) : String := ⟨s.data.map Char.toLower⟩

/-- Does `hay` start with `needle`? (character lists) -/
def leadsWith : List Char → List Char → Bool
  | [], _ => true
  | _ :: _, [] => false
  | a :: as, b :: bs => a == b && leadsWith as bs

/-- JS `hay.includes(needle)` on character lists: `needle` occurs somewhere
inside `hay`. -/
def containsSub : List Char → List Char → Bool
  | [], needle => needle.isEmpty
  | h :: t, needle => leadsWith needle (h :: t) || containsSub t needle

/-- JS `hay.includes(needle)` on strings. -/
def strIncludes (hay needle : String) : Bool := containsSub hay.data needle.data

/-- A table row's `dataset` attributes as written by `populateTable`. -/
structure RowData where
  name : String
  strand : String
  year : String
  semester : String
  status : String
deriving DecidableEq, Repr

/-- `populateTable`: the dataset attributes written onto a student's row. -/
def rowOf (st : NewStudent) : RowData :=
  { name := st.fname ++ " " ++ st.lname
    strand := st.strand.toStr
    year := toString st.gradeLevel
    semester := st.semester
    status := st.enrollment_status.toStr }

/-- The four filter controls' current values (`searchInput.value`,
`filterStrand.value`, `filterYear.value`, `filterSemester.value`). The
match-anything sentinel of the three select controls is the string `"all"`. -/
structure FilterState where
  query : String
  strand : String
  year : String
  semester : String
deriving DecidableEq, Repr

/-- The state the controls start in: empty query, every select on `"all"`. -/
def allAnyFilter : FilterState :=
  { query := "", strand := "all", year := "all", semester := "all" }

/-- The per-row test of `filterTable`: the row stays displayed iff the name,
strand, year and semester predicates all hold. -/
def rowVisible (fs : FilterState) (row : RowData) : Bool :=
  let searchTerm := lowerStr fs.query
  let name := lowerStr row.name
  let nameMatch := strIncludes name searchTerm
  let strandMatch := fs.strand == "all" || row.strand == fs.strand
  let yearMatch := fs.year == "all" || row.year == fs.year
  let semesterMatch := fs.semester == "all" || row.semester == fs.semester
  nameMatch && strandMatch && yearMatch && semesterMatch

/-- `filterTable` over the rendered rows: one display flag per row (`true` for
`row.style.display = ''`, `false` for `'none'`). -/
def filterTable (fs : FilterState) (rows : List RowData) : List Bool :=
  rows.map (rowVisible fs)

/-- Visibility over the working set: rows are rendered from the records by
`populateTable` and then filtered in place by `filterTable`. -/
def computeVisibility (fs : FilterState) (records : List NewStudent) : List Bool :=
  filterTable fs (records.map rowOf)

/-- The spec's wording of the visibility predicate, stated propositionally
over the record itself (this is the definition the source's `filterTable` is
compared against, not the source translation). -/
def visibleSpec (fs : FilterState) (st : NewStudent) : Prop :=
  (∃ pre post, (lowerStr (st.fname ++ " " ++ st.lname)).data
      = pre ++ (lowerStr fs.query).data ++ post)
  ∧ (fs.strand = "all" ∨ st.strand.toStr = fs.strand)
  ∧ (fs.year = "all" ∨ toString st.gradeLevel = fs.year)
  ∧ (fs.semester = "all" ∨ st.semester = fs.semester)

section FilterLemmas

lemma leadsWith_iff (n h : List Char) :
    leadsWith n h = true ↔ ∃ rest, h = n ++ rest := by
  induction n generalizing h with
  | nil => simp [leadsWith]
  | cons a as ih =>
    cases h with
    | nil => simp [leadsWith]
    | cons b bs =>
      simp only [leadsWith, Bool.and_eq_true, beq_iff_eq, ih, List.cons_append,
        List.cons.injEq]
      constructor
      · rintro ⟨rfl, rest, rfl⟩
        exact ⟨rest, rfl, rfl⟩
      · rintro ⟨rest, rfl, rfl⟩
        exact ⟨rfl, rest, rfl⟩

lemma containsSub_iff (h n : List Char) :
    containsSub h n = true ↔ ∃ pre post, h = pre ++ n ++ post := by
  induction h with
  | nil =>
    simp only [containsSub, List.isEmpty_iff]
    constructor
    · rintro rfl
      exact ⟨[], [], rfl⟩
    · rintro ⟨pre, post, he⟩
      have h1 := List.append_eq_nil.mp he.symm
      exact (List.append_eq_nil.mp h1.1).2
  | cons hd tl ih =>
    simp only [containsSub, Bool.or_eq_true, leadsWith_iff, ih]
    constructor
    · rintro (⟨rest, he⟩ | ⟨pre, post, he⟩)
      · exact ⟨[], rest, by simpa using he⟩
      · exact ⟨hd :: pre, post, by simp [he]⟩
    · rintro ⟨pre, post, he⟩
      cases pre with
      | nil => exact Or.inl ⟨post, by simpa using he⟩
      | cons p ps =>
        simp only [List.cons_append, List.cons.injEq] at he
        exact Or.inr ⟨ps, post, he.2⟩

lemma containsSub_nil_needle (hay : List Char) : containsSub hay [] = true := by
  cases hay <;> simp [containsSub, leadsWith]

/-- Pointwise form of the engine: a rendered row passes `filterTable` iff the
record it was rendered from satisfies the spec's four predicates. -/
lemma rowVisible_iff (fs : FilterState) (st : NewStudent) :
    rowVisible fs (rowOf st) = true ↔ visibleSpec fs st := by
  simp only [rowVisible, rowOf, visibleSpec, strIncludes, Bool.and_eq_true,
    Bool.or_eq_true, beq_iff_eq, containsSub_iff]
  tauto

lemma rowVisible_allAny (row : RowData) : rowVisible allAnyFilter row = true := by
  have he : (lowerStr "").data = [] := by decide
  simp [rowVisible, allAnyFilter, strIncludes, he, containsSub_nil_needle]

lemma map_toLower_spaces (l : List Char) (h : ∀ c ∈ l, c = ' ') :
    l.map Char.toLower = l := by
  induction l with
  | nil => rfl
  | cons c t ih =>
    have hc : c = ' ' := h c (List.mem_cons_self c t)
    have ht := ih (fun d hd => h d (List.mem_cons_of_mem c hd))
    have hsp : Char.toLower ' ' = ' ' := by decide
    subst hc
    simp [ht, hsp]

lemma lowerStr_of_spaces (q : String) (h : ∀ c ∈ q.data, c = ' ') :
    lowerStr q = q := by
  unfold lowerStr
  rw [map_toLower_spaces q.data h]

end FilterLemmas

/-- C1: `filterTable` marks a record's row visible iff all four spec
predicates hold of the record: the lowercased display name
(`fname ++ " " ++ lname`) contains the lowercased query as a substring, the
strand select is the `"all"` sentinel or string-equals the record's strand,
the year select is `"all"` or string-equals the grade level's decimal string,
and the semester select is `"all"` or case-sensitively string-equals the
record's term label. Stated for every record list and filter state via
`Forall₂` (which also forces the flag list to be parallel to the input). -/
theorem filterTable_visible_iff (fs : FilterState) (records : List NewStudent) :
    List.Forall₂ (fun (b : Bool) (st : NewStudent) => b = true ↔ visibleSpec fs st)
      (computeVisibility fs records) records := by
  induction records with
  | nil => exact List.Forall₂.nil
  | cons st rest ih => exact List.Forall₂.cons (rowVisible_iff fs st) ih

/-- Sample record used to exhibit the untrimmed-query behaviour. -/
def janeDoe : NewStudent :=
  { lname := "Doe", fname := "Jane", strand := .STEM, gradeLevel := 11,
    semester := "1st", enrollment_status := .Pending }

/-- C6: with the all-`"all"`/empty filter state every record is visible; an
empty working set gives an empty visibility list, not an error; a query made
of whitespace only is lowercased to itself and matched literally as a
substring (no trimming): visibility is exactly the untrimmed substring test,
and concretely the two-space query hides Jane Doe (display name "Jane Doe")
while the empty query shows her, which trimming would not distinguish. -/
theorem computeVisibility_edge_cases :
    (∀ records : List NewStudent,
      computeVisibility allAnyFilter records = List.replicate records.length true)
    ∧ (∀ fs : FilterState, computeVisibility fs [] = [])
    ∧ (∀ (q : String) (records : List NewStudent), (∀ c ∈ q.data, c = ' ') →
        computeVisibility { query := q, strand := "all", year := "all", semester := "all" }
            records
          = records.map (fun st =>
              containsSub (lowerStr (st.fname ++ " " ++ st.lname)).data q.data))
    ∧ rowVisible { query := "  ", strand := "all", year := "all", semester := "all" }
        (rowOf janeDoe) = false
    ∧ rowVisible { query := "", strand := "all", year := "all", semester := "all" }
        (rowOf janeDoe) = true := by
  refine ⟨?_, fun fs => rfl, ?_, by decide, by decide⟩
  · intro records
    induction records with
    | nil => rfl
    | cons st rest ih =>
      simp only [computeVisibility, filterTable, List.map_cons, List.length_cons,
        List.replicate_succ] at ih ⊢
      rw [rowVisible_allAny, ih]
  · intro q records hq
    have hlq : lowerStr q = q := lowerStr_of_spaces q hq
    simp only [computeVisibility, filterTable, List.map_map]
    congr 1
    funext st
    simp [rowVisible, rowOf, strIncludes, hlq, Function.comp]

/-- Witness for C6's whitespace clause at the single-space query over a
one-record working set. -/
theorem computeVisibility_edge_cases_witness :
    computeVisibility { query := " ", strand := "all", year := "all", semester := "all" }
        [janeDoe]
      = [janeDoe].map (fun st =>
          containsSub (lowerStr (st.fname ++ " " ++ st.lname)).data (String.data " ")) :=
  computeVisibility_edge_cases.2.2.1 " " [janeDoe] (by decide)

/-! ### Detail Projector and modal state machine -/

/-- The display-ready structure shown in the detail popup. -/
structure DetailView where
  displayName : String
  track : String
  level : String
  term : String
  status : String
deriving DecidableEq, Repr

/-- `openStudentModal` over the clicked row's dataset: every modal field is
set from the row that `populateTable` rendered from the record, so the
projection factors through `rowOf`. -/
def project (st : NewStudent) : DetailView :=
  { displayName := (rowOf st).name
    track := (rowOf st).strand
    level := (rowOf st).year
    term := (rowOf st).semester
    status := (rowOf st).status }

/-- The two user events the modal reacts to: a click on a row's VIEW button,
and a dismiss (the explicit close button, or a click on the backdrop outside
the detail surface — both run `classList.add('hidden')`). -/
inductive ModalEvent
  | select (st : NewStudent)
  | dismiss

/-- Modal visibility (`hidden` class absent) plus the currently projected
fields. -/
structure ModalState where
  isOpen : Bool
  view : Option DetailView
deriving DecidableEq, Repr

/-- The modal starts hidden with nothing projected. -/
def initialModalState : ModalState := { isOpen := false, view := none }

/-- One event of the modal machine: `select` runs `openStudentModal` (fills
every modal field from the row, removes `hidden`); `dismiss` adds `hidden`
back and touches nothing else. -/
def modalStep (s : ModalState) (e : ModalEvent) : ModalState :=
  match e with
  | .select st => { isOpen := true, view := some (project st) }
  | .dismiss => { s with isOpen := false }

/-- C7: the detail machine has the two states Closed (`isOpen = false`) and
Open, starts Closed, a selection event always leads to Open with the
projector's output fully replacing the previous projection (so selecting
while Open re-enters Open refreshed), a dismiss event always leads to Closed,
and nothing but a selection event ever makes the modal open. -/
theorem modal_state_machine :
    initialModalState.isOpen = false
    ∧ (∀ (s : ModalState) (st : NewStudent),
        modalStep s (.select st) = { isOpen := true, view := some (project st) })
    ∧ (∀ s : ModalState, (modalStep s .dismiss).isOpen = false)
    ∧ (∀ (s : ModalState) (e : ModalEvent),
        (modalStep s e).isOpen = true ↔ ∃ st, e = ModalEvent.select st) := by
  refine ⟨rfl, fun s st => rfl, fun s => rfl, fun s e => ?_⟩
  cases e with
  | select st => simp [modalStep]
  | dismiss => simp [modalStep]

/-- C8: `project` is a total function; its output carries the display name
`fname ++ " " ++ lname`, the strand and status display strings, the grade
level rendered as a decimal string and the term label verbatim; and on the
record (Cruz, Ana, ABM, 12, "2nd", Enrolled) it yields exactly the DetailView
("Ana Cruz", "ABM", "12", "2nd", "Enrolled"). -/
theorem project_spec :
    (∀ st : NewStudent,
      project st = { displayName := st.fname ++ " " ++ st.lname,
                     track := st.strand.toStr,
                     level := toString st.gradeLevel,
                     term := st.semester,
                     status := st.enrollment_status.toStr })
    ∧ project { lname := "Cruz", fname := "Ana", strand := .ABM, gradeLevel := 12,
                semester := "2nd", enrollment_status := .Enrolled }
        = { displayName := "Ana Cruz", track := "ABM", level := "12",
            term := "2nd", status := "Enrolled" } :=
  ⟨fun _ => rfl, by decide⟩

/-! ### View initialization and fetch-failure handling -/

/-- Presence flags for the elements the students view looks up on
DOMContentLoaded. -/
structure StudentsPageElements where
  searchInput : Bool
  filterStrand : Bool
  filterYear : Bool
  filterSemester : Bool
  tableBody : Bool
  modal : Bool
  closeModalBtn : Bool
deriving DecidableEq, Repr

/-- Observable outcome of the students-view initializer. -/
structure StudentsInitOutcome where
  abortedEarly : Bool
  fetchIssued : Bool
  renderedRows : Option Nat
  errorPlaceholderShown : Bool
  filterListenersAttached : Bool
  modalCloseListenerAttached : Bool
  modalOutsideListenerAttached : Bool
  threw : Bool
deriving DecidableEq, Repr

/-- The students-view DOMContentLoaded handler: guard on the essential
elements (table body, search input, three filter selects) with an early
return, then fetch, populate the table or write the error row into the table
body, then attach the filter and modal listeners. -/
def initStudentsPage (els : StudentsPageElements)
    (fetchResult : Except String (List NewStudent)) : StudentsInitOutcome :=
  if !(els.tableBody && els.searchInput && els.filterStrand && els.filterYear
      && els.filterSemester) then
    { abortedEarly := true, fetchIssued := false, renderedRows := none,
      errorPlaceholderShown := false, filterListenersAttached := false,
      modalCloseListenerAttached := false, modalOutsideListenerAttached := false,
      threw := false }
  else
    match fetchResult with
    | .ok students =>
        { abortedEarly := false, fetchIssued := true,
          renderedRows := some students.length, errorPlaceholderShown := false,
          filterListenersAttached := true,
          modalCloseListenerAttached := els.closeModalBtn,
          modalOutsideListenerAttached := els.modal, threw := false }
    | .error _ =>
        { abortedEarly := false, fetchIssued := true, renderedRows := none,
          errorPlaceholderShown := true, filterListenersAttached := true,
          modalCloseListenerAttached := els.closeModalBtn,
          modalOutsideListenerAttached := els.modal, threw := false }

/-- Observable outcome of the dashboard view's initializer. -/
structure DashboardOutcome where
  strandCardsRendered : Bool
  statusCardsRendered : Bool
  recentTableRendered : Bool
  errorPlaceholderShown : Bool
  threw : Bool
deriving DecidableEq, Repr

/-- The dashboard DOMContentLoaded handler: the counts fetch, the recency
fetch and all DOM updates sit inside one `try`; the `catch` only calls
`console.error`, so a failure of either fetch skips every update and shows
nothing. -/
def initDashboardPage (countsResult : Except String (StrandCounts × StatusCounts))
    (recentResult : Except String (List NewStudent)) : DashboardOutcome :=
  match countsResult with
  | .error _ =>
      { strandCardsRendered := false, statusCardsRendered := false,
        recentTableRendered := false, errorPlaceholderShown := false,
        threw := false }
  | .ok _ =>
    match recentResult with
    | .error _ =>
        { strandCardsRendered := false, statusCardsRendered := false,
          recentTableRendered := false, errorPlaceholderShown := false,
          threw := false }
    | .ok _ =>
        { strandCardsRendered := true, statusCardsRendered := true,
          recentTableRendered := true, errorPlaceholderShown := false,
          threw := false }

/-- C2 fails on the dashboard: with the tallies fetch succeeding and only the
recency fetch failing, the tally cards are not rendered either (the single
try/catch aborts every section) and no user-visible error placeholder
appears. -/
theorem dashboard_failure_not_isolated :
    ((initDashboardPage (Except.ok (initialStrandCounts, initialStatusCounts))
        (Except.error "Failed to load recent applications.")).strandCardsRendered
      = false)
    ∧ ((initDashboardPage (Except.ok (initialStrandCounts, initialStatusCounts))
        (Except.error "Failed to load recent applications.")).errorPlaceholderShown
      = false) :=
  ⟨rfl, rfl⟩

/-- C2 as amended: in the dashboard a failure of either fetch aborts all
dashboard sections with no user-visible placeholder, though no exception
escapes the handler; in the roster view a fetch failure writes a user-visible
error placeholder into the table body, the listeners are still attached, and
no exception escapes. -/
theorem fetch_failure_propagation (e : String)
    (rr : Except String (List NewStudent))
    (els : StudentsPageElements)
    (hels : (els.tableBody && els.searchInput && els.filterStrand && els.filterYear
      && els.filterSemester) = true) :
    initDashboardPage (Except.error e) rr
        = { strandCardsRendered := false, statusCardsRendered := false,
            recentTableRendered := false, errorPlaceholderShown := false,
            threw := false }
    ∧ (∀ cs : StrandCounts × StatusCounts,
        initDashboardPage (Except.ok cs) (Except.error e)
          = { strandCardsRendered := false, statusCardsRendered := false,
              recentTableRendered := false, errorPlaceholderShown := false,
              threw := false })
    ∧ (initStudentsPage els (Except.error e)).errorPlaceholderShown = true
    ∧ (initStudentsPage els (Except.error e)).filterListenersAttached = true
    ∧ (initStudentsPage els (Except.error e)).threw = false := by
  refine ⟨rfl, fun cs => rfl, ?_, ?_, ?_⟩ <;>
    simp [initStudentsPage, hels]

/-- Witness for the amended C2 at a concrete element set and failure. -/
theorem fetch_failure_propagation_witness :
    (initStudentsPage ⟨true, true, true, true, true, true, true⟩
        (Except.error "Failed to load students.")).errorPlaceholderShown = true :=
  (fetch_failure_propagation "Failed to load students." (Except.ok [])
    ⟨true, true, true, true, true, true, true⟩ (by decide)).2.2.1

/-- C10: if any essential element (table body, search input, or one of the
three filter selects) is missing, the students-view initializer returns
early: no fetch is issued, nothing is rendered, no placeholder is written, no
listener is attached, and no exception escapes. -/
theorem students_missing_elements_abort
    (els : StudentsPageElements) (res : Except String (List NewStudent))
    (h : (els.tableBody && els.searchInput && els.filterStrand && els.filterYear
      && els.filterSemester) = false) :
    initStudentsPage els res
      = { abortedEarly := true, fetchIssued := false, renderedRows := none,
          errorPlaceholderShown := false, filterListenersAttached := false,
          modalCloseListenerAttached := false, modalOutsideListenerAttached := false,
          threw := false } := by
  simp [initStudentsPage, h]

/-- Witness for C10 with the search input missing. -/
theorem students_missing_elements_abort_witness :
    initStudentsPage ⟨false, true, true, true, true, true, true⟩ (Except.ok [])
      = { abortedEarly := true, fetchIssued := false, renderedRows := none,
          errorPlaceholderShown := false, filterListenersAttached := false,
          modalCloseListenerAttached := false, modalOutsideListenerAttached := false,
          threw := false } :=
  students_missing_elements_abort ⟨false, true, true, true, true, true, true⟩
    (Except.ok []) (by decide)

end KVSHS
